import Mathlib

/-!
Shallow embedding of the movie recommender core in `src/movie.py`.

A `MovieRecord` models one row of the cleaned dataframe `df` (columns
`title`, `overview`, `poster_url`); `poster_url = none` models a missing
(NaN) value, `some u` a present string (possibly empty, since
`pd.notna("")` is true).  The similarity matrix is passed to `recommend`
as data, exactly as in the Python function
`recommend(movie_title, df, similarity_matrix)`.

`recommendCore` returns `none` where the Python body would raise an
exception (an out-of-range index); `recommend` applies the surrounding
`try/except` which turns any exception into the empty list.
-/

structure MovieRecord where
  title : String
  overview : String
  poster_url : Option String
deriving DecidableEq, Repr

structure Recommendation where
  title : String
  overview : String
  poster_url : String
  similarity_score : ℚ
deriving DecidableEq, Repr

def placeholderUrl : String := "https://via.placeholder.com/200x300?text=No+Image"

def ellipsisMarker : String := "..."

/-- Rounding of the fraction `n / d` (with `d > 0`) to the nearest
integer with ties to even, as Python `round` does in exact arithmetic:
`f` is the floor and `r` the remainder, and `2 * r` is compared with
`d`. -/
def roundHalfEven (n : ℤ) (d : ℕ) : ℤ :=
  let f := n.fdiv d
  let r := n - f * d
  if 2 * r < (d : ℤ) then f
  else if (d : ℤ) < 2 * r then f + 1
  else if f % 2 = 0 then f else f + 1

/-- Python `round(score, 3)`: the nearest multiple of `1/1000`
(`q * 1000 = (q.num * 1000) / q.den` is rounded to an integer and put
back over `1000`). -/
def round3 (q : ℚ) : ℚ := mkRat (roundHalfEven (q.num * 1000) q.den) 1000

/-- The Python character slice `s[:n]`. -/
def strSlice (s : String) (n : Nat) : String := ⟨s.data.take n⟩

/-- The dictionary built for one recommended record (lines 99-104 of
`movie.py`): truncated overview, poster fallback for a missing (NaN)
value, rounded score. -/
def formatRecord (r : MovieRecord) (score : ℚ) : Recommendation where
  title := r.title
  overview :=
    if r.overview.length > 150 then strSlice r.overview 150 ++ ellipsisMarker
    else r.overview
  poster_url :=
    match r.poster_url with
    | some u => u
    | none => placeholderUrl
  similarity_score := round3 score

/-- Python `s.lower()`, character by character. -/
def strLower (s : String) : String := ⟨s.data.map Char.toLower⟩

/-- The row mask `df['title'].str.lower() == movie_title.lower()`. -/
def titleMatches (movie_title : String) (r : MovieRecord) : Bool :=
  strLower r.title == strLower movie_title

/-- The order realized by the stable Python sort
`sorted(distances, key=lambda x: x[1], reverse=True)` on the output of
`enumerate`: descending score, and for equal scores the original
(ascending-position) order is kept, because positions in the input are
strictly increasing. -/
def pyLe (a b : Nat × ℚ) : Prop :=
  b.2 < a.2 ∨ (a.2 = b.2 ∧ a.1 ≤ b.1)

instance : DecidableRel pyLe := fun a b => by
  unfold pyLe; infer_instance

/-- Lines 93-94 of `movie.py`: enumerate one similarity row, sort
descending by score (stably), then take the slice `[1:6]`.  (A stable
sort of the strictly-increasing-position `enumerate` output by score is
the same list as any sort by `pyLe`.) -/
def rankRow (row : List ℚ) : List (Nat × ℚ) :=
  ((List.insertionSort pyLe row.enum).drop 1).take 5

/-- A loop body that can raise: `none` models an exception escaping the
loop of lines 97-104. -/
def optionMapList {α β : Type _} (f : α → Option β) : List α → Option (List β)
  | [] => some []
  | a :: as => (f a).bind fun b => (optionMapList f as).map fun bs => b :: bs

/-- The body of `recommend` inside the `try`: `some` is a normal return,
`none` an exception (raised by `similarity_matrix[index]` or `df.iloc[i]`
on an out-of-range index). -/
def recommendCore (movie_title : String) (df : List MovieRecord)
    (sim : List (List ℚ)) : Option (List Recommendation) :=
  match df.findIdx? (titleMatches movie_title) with
  | none => some []
  | some idx =>
    match sim[idx]? with
    | none => none
    | some row =>
      optionMapList (fun p => (df[p.1]?).map (fun r => formatRecord r p.2))
        (rankRow row)

/-- The function `recommend` of `movie.py`: the `except` clause maps any exception to
the empty list. -/
def recommend (movie_title : String) (df : List MovieRecord)
    (sim : List (List ℚ)) : List Recommendation :=
  (recommendCore movie_title df sim).getD []

/-! ### The similarity matrix (`compute_similarity`, lines 69-73)

The record vectorization itself is performed by the outside library call
`TfidfVectorizer(...).fit_transform`; the matrix construction
`cosine_similarity(tfidf_matrix)` is embedded here over the resulting
term-weight vectors, one `List ℝ` per record, in corpus order. -/

/-- Dot product of two weight vectors. -/
def dot (v w : List ℝ) : ℝ := (List.zipWith (· * ·) v w).sum

/-- Euclidean norm of a weight vector. -/
noncomputable def norm2 (v : List ℝ) : ℝ := Real.sqrt (dot v v)

/-- One entry of `cosine_similarity`: a zero vector yields similarity 0
rather than NaN (the library replaces zero norms by 1 before dividing,
so a zero numerator is divided by a nonzero denominator). -/
noncomputable def cosineSim (v w : List ℝ) : ℝ :=
  if norm2 v = 0 ∨ norm2 w = 0 then 0 else dot v w / (norm2 v * norm2 w)

/-- The call `cosine_similarity(tfidf_matrix)`: the full pairwise matrix over the
per-record term-weight vectors. -/
noncomputable def computeSimilarity (vecs : List (List ℝ)) : List (List ℝ) :=
  vecs.map fun v => vecs.map fun w => cosineSim v w

theorem dot_comm (v w : List ℝ) : dot v w = dot w v := by
  unfold dot
  rw [List.zipWith_comm_of_comm (· * ·) mul_comm]

theorem dot_nil_left (w : List ℝ) : dot [] w = 0 := rfl

theorem dot_nil_right (v : List ℝ) : dot v [] = 0 := by
  rw [dot_comm]
  exact dot_nil_left v

theorem norm2_nil : norm2 [] = 0 := by
  rw [norm2, dot_nil_left, Real.sqrt_zero]

theorem cosineSim_comm (v w : List ℝ) : cosineSim v w = cosineSim w v := by
  unfold cosineSim
  by_cases h : norm2 v = 0 ∨ norm2 w = 0
  · rw [if_pos h, if_pos h.symm]
  · rw [if_neg h, if_neg fun hc => h hc.symm, dot_comm,
      mul_comm (norm2 w) (norm2 v)]

theorem cosineSim_nil_left (w : List ℝ) : cosineSim [] w = 0 := by
  unfold cosineSim
  rw [if_pos (Or.inl norm2_nil)]

theorem cosineSim_nil_right (v : List ℝ) : cosineSim v [] = 0 := by
  unfold cosineSim
  rw [if_pos (Or.inr norm2_nil)]

theorem cosineSim_self {v : List ℝ} (h : 0 < dot v v) : cosineSim v v = 1 := by
  have hnorm : norm2 v ≠ 0 := Real.sqrt_ne_zero'.mpr h
  unfold cosineSim
  rw [if_neg (by push_neg; exact ⟨hnorm, hnorm⟩)]
  rw [norm2, Real.mul_self_sqrt h.le]
  exact div_self h.ne'

theorem getD_out_of_range {α : Type _} {l : List α} {n : Nat} (d : α)
    (h : l.length ≤ n) : l.getD n d = d := by
  rw [List.getD_eq_getElem?_getD, List.getElem?_eq_none h, Option.getD_none]

theorem getD_in_range {α : Type _} {l : List α} {n : Nat} (d : α)
    (h : n < l.length) : l.getD n d = l.get ⟨n, h⟩ := by
  rw [List.getD_eq_getElem?_getD, List.getElem?_eq_getElem h,
    Option.getD_some, List.get_eq_getElem]

theorem computeSimilarity_getD (vecs : List (List ℝ)) (i j : Nat) :
    ((computeSimilarity vecs).getD i []).getD j 0 =
      cosineSim (vecs.getD i []) (vecs.getD j []) := by
  rcases Nat.lt_or_ge i vecs.length with hi | hi
  · have h1 : (computeSimilarity vecs).getD i []
        = List.map (fun w => cosineSim (vecs.getD i []) w) vecs := by
      unfold computeSimilarity
      rw [getD_in_range _ (by simpa using hi), getD_in_range _ hi,
        List.get_eq_getElem, List.get_eq_getElem, List.getElem_map]
    rw [h1]
    rcases Nat.lt_or_ge j vecs.length with hj | hj
    · rw [getD_in_range _ (by simpa using hj), getD_in_range _ hj,
        List.get_eq_getElem, List.get_eq_getElem, List.getElem_map]
    · rw [getD_out_of_range _ (by simpa using hj),
        getD_out_of_range _ hj, cosineSim_nil_right]
  · have h0 : (computeSimilarity vecs).getD i [] = [] :=
      getD_out_of_range _ (by simpa [computeSimilarity] using hi)
    have h2 : vecs.getD i [] = [] := getD_out_of_range _ hi
    rw [h0, h2, List.getD_nil, cosineSim_nil_left]

/-! ### Basic facts about the embedded operations -/

instance : IsTotal (Nat × ℚ) pyLe := by
  constructor
  intro a b
  unfold pyLe
  rcases lt_trichotomy a.2 b.2 with h | h | h
  · exact Or.inr (Or.inl h)
  · rcases Nat.le_total a.1 b.1 with h' | h'
    · exact Or.inl (Or.inr ⟨h, h'⟩)
    · exact Or.inr (Or.inr ⟨h.symm, h'⟩)
  · exact Or.inl (Or.inl h)

instance : IsTrans (Nat × ℚ) pyLe := by
  constructor
  intro a b c hab hbc
  rcases hab with h1 | ⟨h1, h2⟩ <;> rcases hbc with h3 | ⟨h3, h4⟩
  · exact Or.inl (h3.trans h1)
  · exact Or.inl (h3 ▸ h1)
  · exact Or.inl (h1.symm ▸ h3)
  · exact Or.inr ⟨h1.trans h3, h2.trans h4⟩

/-- The ranked slice is strictly ordered: descending scores, and strictly
ascending positions for equal scores (positions are pairwise distinct
because they come from `enumerate`). -/
theorem rankRow_sorted (row : List ℚ) :
    (rankRow row).Pairwise fun a b => b.2 < a.2 ∨ (a.2 = b.2 ∧ a.1 < b.1) := by
  have hsort : (List.insertionSort pyLe row.enum).Pairwise pyLe :=
    List.sorted_insertionSort pyLe row.enum
  have hnodup : ((List.insertionSort pyLe row.enum).map Prod.fst).Nodup :=
    (((List.perm_insertionSort pyLe row.enum).map Prod.fst).nodup_iff).mpr
      (List.nodup_enum_map_fst row)
  have hne : (List.insertionSort pyLe row.enum).Pairwise fun a b => a.1 ≠ b.1 :=
    List.pairwise_map.mp hnodup
  have hstrict : (List.insertionSort pyLe row.enum).Pairwise
      fun a b => b.2 < a.2 ∨ (a.2 = b.2 ∧ a.1 < b.1) := by
    refine (hsort.and hne).imp ?_
    rintro a b ⟨hle, hneq⟩
    rcases hle with h | ⟨h1, h2⟩
    · exact Or.inl h
    · exact Or.inr ⟨h1, lt_of_le_of_ne h2 hneq⟩
  exact List.Pairwise.sublist
    ((List.take_sublist 5 _).trans (List.drop_sublist 1 _)) hstrict

theorem rankRow_length (row : List ℚ) :
    (rankRow row).length = min (row.length - 1) 5 := by
  unfold rankRow
  rw [List.length_take, List.length_drop, List.length_insertionSort,
    List.enum_length, Nat.min_comm]

theorem mem_rankRow_lt {row : List ℚ} {p : Nat × ℚ} (hp : p ∈ rankRow row) :
    p.1 < row.length := by
  have hp' : p ∈ row.enum := by
    have h1 : p ∈ List.insertionSort pyLe row.enum :=
      ((List.take_sublist 5 _).trans (List.drop_sublist 1 _)).mem hp
    exact (List.perm_insertionSort pyLe row.enum).mem_iff.mp h1
  have := List.mem_enum_iff_getElem?.mp hp'
  exact (List.getElem?_eq_some.mp this).1

theorem optionMapList_eq_some {α β : Type _} (f : α → Option β) :
    ∀ (l : List α) (l' : List β), optionMapList f l = some l' →
      l'.length = l.length ∧ ∀ b ∈ l', ∃ a ∈ l, f a = some b := by
  intro l
  induction l with
  | nil =>
    intro l' h
    simp only [optionMapList, Option.some.injEq] at h
    subst h
    simp
  | cons a as ih =>
    intro l' h
    simp only [optionMapList, Option.bind_eq_some, Option.map_eq_some'] at h
    obtain ⟨b, hfa, bs, hrec, rfl⟩ := h
    obtain ⟨hlen, hmem⟩ := ih bs hrec
    refine ⟨by simp [hlen], ?_⟩
    intro b' hb'
    rcases List.mem_cons.mp hb' with rfl | hb'
    · exact ⟨a, List.mem_cons_self a as, hfa⟩
    · obtain ⟨a', ha', hfa'⟩ := hmem b' hb'
      exact ⟨a', List.mem_cons_of_mem a ha', hfa'⟩

theorem optionMapList_isSome {α β : Type _} (f : α → Option β) :
    ∀ l : List α, (∀ a ∈ l, (f a).isSome) →
      ∃ l', optionMapList f l = some l' := by
  intro l
  induction l with
  | nil => intro _; exact ⟨[], rfl⟩
  | cons a as ih =>
    intro h
    obtain ⟨b, hb⟩ := Option.isSome_iff_exists.mp (h a (List.mem_cons_self a as))
    obtain ⟨bs, hbs⟩ := ih fun a' ha' => h a' (List.mem_cons_of_mem a ha')
    exact ⟨b :: bs, by simp [optionMapList, hb, hbs]⟩

/-- Every element of a `recommend` result is `formatRecord` applied to a
record of the dataframe (with the score the ranking paired it with). -/
theorem mem_recommend {t : String} {df : List MovieRecord}
    {sim : List (List ℚ)} {rec : Recommendation}
    (h : rec ∈ recommend t df sim) :
    ∃ (i : Nat) (r : MovieRecord) (score : ℚ),
      df[i]? = some r ∧ rec = formatRecord r score := by
  unfold recommend at h
  cases hcore : recommendCore t df sim with
  | none => rw [hcore] at h; simp at h
  | some l =>
    rw [hcore] at h
    simp only [Option.getD_some] at h
    unfold recommendCore at hcore
    cases hidx : df.findIdx? (titleMatches t) with
    | none =>
      rw [hidx] at hcore
      simp only [Option.some.injEq] at hcore
      subst hcore
      simp at h
    | some idx =>
      rw [hidx] at hcore
      dsimp only at hcore
      cases hrow : sim[idx]? with
      | none => rw [hrow] at hcore; simp at hcore
      | some row =>
        rw [hrow] at hcore
        obtain ⟨-, hmem⟩ := optionMapList_eq_some _ _ _ hcore
        obtain ⟨p, _, hfp⟩ := hmem rec h
        rw [Option.map_eq_some'] at hfp
        obtain ⟨r, hr, rfl⟩ := hfp
        exact ⟨p.1, r, p.2, hr, rfl⟩

/-! ### Concrete corpora, used as witnesses and counterexamples -/

/-- Two records with distinct overviews and an orthogonal-overview
similarity matrix. -/
def dfPair : List MovieRecord := [⟨"A", "x", none⟩, ⟨"B", "y", none⟩]

def simPair : List (List ℚ) := [[1, 0], [0, 1]]

/-- Two records with identical overviews: every pairwise cosine
similarity is `1.0`. -/
def dfTied : List MovieRecord := [⟨"A", "x", none⟩, ⟨"B", "x", none⟩]

def simTied : List (List ℚ) := [[1, 1], [1, 1]]

/-- Record `B` stores the empty string (not NaN) as its poster_url. -/
def dfEmptyPoster : List MovieRecord := [⟨"A", "x", none⟩, ⟨"B", "x", some ""⟩]

/-- A one-record corpus. -/
def dfOne : List MovieRecord := [⟨"A", "x", none⟩]

def simOne : List (List ℚ) := [[1]]

/-- An overview of 151 characters, one over the truncation threshold. -/
def longOverview : String := ⟨List.replicate 151 'a'⟩

def dfLong : List MovieRecord := [⟨"A", "x", none⟩, ⟨"B", longOverview, none⟩]

/-! ### The claims -/

/-- Claim C1 (code bug): the queried record is supposed never to appear in
its own recommendations, but the code drops the first element of the
sorted list (`[1:6]`) instead of excluding the matched position.  When
another record at an earlier corpus position has similarity exactly 1.0
(identical overview), the stable sort places that record first; it is the
one dropped, and the queried record itself is returned.  Here corpus
`[A, B]` has identical overviews, the query is `B`, and the single
recommendation returned is `B` itself. -/
theorem C1_self_recommended_at_tie :
    (recommend "B" dfTied simTied).map Recommendation.title = ["B"] := by
  decide

/-- Claim C2: the ranked slice is ordered by non-increasing (unrounded)
score, and two entries with equal scores appear in ascending order of
original corpus position; moreover on a successful lookup `recommend`
formats exactly these ranked pairs, in exactly this order (the whole
computation is a pure function of its arguments). -/
theorem C2_ranking_order :
    (∀ row : List ℚ, (rankRow row).Pairwise
      fun a b => b.2 < a.2 ∨ (a.2 = b.2 ∧ a.1 < b.1)) ∧
    (∀ (t : String) (df : List MovieRecord) (sim : List (List ℚ))
      (idx : Nat) (row : List ℚ),
      df.findIdx? (titleMatches t) = some idx → sim[idx]? = some row →
      recommendCore t df sim =
        optionMapList (fun p => (df[p.1]?).map fun r => formatRecord r p.2)
          (rankRow row)) := by
  refine ⟨rankRow_sorted, ?_⟩
  intro t df sim idx row hidx hrow
  unfold recommendCore
  rw [hidx]
  dsimp only
  rw [hrow]

theorem C2_witness :
    (rankRow [(1 : ℚ), 0]).Pairwise
      (fun a b => b.2 < a.2 ∨ (a.2 = b.2 ∧ a.1 < b.1)) ∧
    recommendCore "A" dfPair simPair =
      optionMapList (fun p => (dfPair[p.1]?).map fun r => formatRecord r p.2)
        (rankRow [(1 : ℚ), 0]) :=
  ⟨C2_ranking_order.1 [(1 : ℚ), 0],
   C2_ranking_order.2 "A" dfPair simPair 0 [(1 : ℚ), 0] (by decide) (by decide)⟩

/-- Claim C3 fails as stated: a record whose stored `poster_url` is the
empty string (so `pd.notna` holds) is returned with `poster_url = ""`,
not with the placeholder — the placeholder only replaces a missing (NaN)
value. -/
theorem C3_empty_poster_counterexample :
    (recommend "A" dfEmptyPoster simTied).map Recommendation.poster_url
      = [""] := by
  decide

/-- Claim C3 (amended): the fixed non-empty placeholder is substituted
exactly when the stored `poster_url` is missing (NaN); any stored string
value, including the empty string, is returned verbatim. -/
theorem C3_poster_fallback :
    ∀ (t : String) (df : List MovieRecord) (sim : List (List ℚ))
      (rec : Recommendation), rec ∈ recommend t df sim →
    ∃ (i : Nat) (r : MovieRecord) (score : ℚ), df[i]? = some r ∧
      rec = formatRecord r score ∧
      (r.poster_url = none →
        rec.poster_url = placeholderUrl ∧ rec.poster_url ≠ "") ∧
      (∀ u, r.poster_url = some u → rec.poster_url = u) := by
  intro t df sim rec h
  obtain ⟨i, r, score, hi, rfl⟩ := mem_recommend h
  refine ⟨i, r, score, hi, rfl, ?_, ?_⟩
  · intro hnone
    have hurl : (formatRecord r score).poster_url = placeholderUrl := by
      unfold formatRecord
      rw [hnone]
    exact ⟨hurl, by rw [hurl]; decide⟩
  · intro u hu
    unfold formatRecord
    rw [hu]

theorem C3_witness :
    ∃ (i : Nat) (r : MovieRecord) (score : ℚ), dfPair[i]? = some r ∧
      formatRecord ⟨"B", "y", none⟩ 0 = formatRecord r score ∧
      (r.poster_url = none →
        (formatRecord ⟨"B", "y", none⟩ 0).poster_url = placeholderUrl ∧
        (formatRecord ⟨"B", "y", none⟩ 0).poster_url ≠ "") ∧
      (∀ u, r.poster_url = some u →
        (formatRecord ⟨"B", "y", none⟩ 0).poster_url = u) :=
  C3_poster_fallback "A" dfPair simPair (formatRecord ⟨"B", "y", none⟩ 0)
    (by
      rw [show recommend "A" dfPair simPair
        = [formatRecord ⟨"B", "y", none⟩ 0] from by decide]
      exact List.mem_singleton.mpr rfl)

/-- Claim C4 fails as stated: a title matching no record does not produce
a distinguishable typed error — the body returns the plain empty list (a
normal, non-exceptional result, witnessed by `recommendCore` returning
`some []`). -/
theorem C4_counterexample :
    recommendCore "zzz" dfPair simPair = some [] ∧
    recommend "zzz" dfPair simPair = [] := by
  decide

/-- Claim C4 (amended): when no record matches the query title
case-insensitively, `recommend` returns the empty list as a normal
success value (it logs a warning and does not raise), so the caller
cannot distinguish this from any other empty result. -/
theorem C4_not_found_empty :
    ∀ (t : String) (df : List MovieRecord) (sim : List (List ℚ)),
    (∀ r ∈ df, strLower r.title ≠ strLower t) →
    recommendCore t df sim = some [] ∧ recommend t df sim = [] := by
  intro t df sim h
  have hidx : df.findIdx? (titleMatches t) = none := by
    rw [List.findIdx?_eq_none_iff]
    intro r hr
    unfold titleMatches
    exact beq_eq_false_iff_ne.mpr (h r hr)
  constructor
  · unfold recommendCore
    rw [hidx]
  · unfold recommend recommendCore
    rw [hidx]
    rfl

theorem C4_witness :
    recommendCore "zzz" dfOne simOne = some [] ∧
    recommend "zzz" dfOne simOne = [] :=
  C4_not_found_empty "zzz" dfOne simOne (by decide)

/-- Claim C5: every returned overview is the stored overview truncated to
its first 150 characters plus the ellipsis marker (total length
150 + 3) when the stored overview exceeds 150 characters, and the stored
overview verbatim when its length is at most 150. -/
theorem C5_truncation :
    ∀ (t : String) (df : List MovieRecord) (sim : List (List ℚ))
      (rec : Recommendation), rec ∈ recommend t df sim →
    ∃ (i : Nat) (r : MovieRecord) (score : ℚ), df[i]? = some r ∧
      rec = formatRecord r score ∧
      (150 < r.overview.length →
        rec.overview = strSlice r.overview 150 ++ ellipsisMarker ∧
        rec.overview.length = 150 + ellipsisMarker.length) ∧
      (r.overview.length ≤ 150 → rec.overview = r.overview) := by
  intro t df sim rec h
  obtain ⟨i, r, score, hi, rfl⟩ := mem_recommend h
  refine ⟨i, r, score, hi, rfl, ?_, ?_⟩
  · intro hlen
    have hover : (formatRecord r score).overview
        = strSlice r.overview 150 ++ ellipsisMarker := by
      unfold formatRecord
      rw [if_pos hlen]
    refine ⟨hover, ?_⟩
    rw [hover]
    show ((strSlice r.overview 150).data ++ ellipsisMarker.data).length
      = 150 + ellipsisMarker.length
    rw [List.length_append]
    congr 1
    show (r.overview.data.take 150).length = 150
    rw [List.length_take]
    exact Nat.min_eq_left hlen.le
  · intro hlen
    show (formatRecord r score).overview = r.overview
    unfold formatRecord
    rw [if_neg (by omega)]

set_option maxRecDepth 4000 in
theorem C5_witness :
    ∃ (i : Nat) (r : MovieRecord) (score : ℚ), dfLong[i]? = some r ∧
      formatRecord ⟨"B", longOverview, none⟩ 0 = formatRecord r score ∧
      (150 < r.overview.length →
        (formatRecord ⟨"B", longOverview, none⟩ 0).overview
          = strSlice r.overview 150 ++ ellipsisMarker ∧
        (formatRecord ⟨"B", longOverview, none⟩ 0).overview.length
          = 150 + ellipsisMarker.length) ∧
      (r.overview.length ≤ 150 →
        (formatRecord ⟨"B", longOverview, none⟩ 0).overview = r.overview) :=
  C5_truncation "A" dfLong simPair (formatRecord ⟨"B", longOverview, none⟩ 0)
    (by
      rw [show recommend "A" dfLong simPair
        = [formatRecord ⟨"B", longOverview, none⟩ 0] from by decide]
      exact List.mem_singleton.mpr rfl)

/-- Claim C6: on any corpus whose similarity matrix is square of the
corpus size, a successful title match never fails: the body returns
normally with exactly `min (N - 1) 5` recommendations — in particular,
fewer than 5 when the corpus has fewer than 6 records, 1 for a 2-record
corpus, and 0 for a 1-record corpus. -/
theorem C6_small_corpus :
    ∀ (t : String) (df : List MovieRecord) (sim : List (List ℚ)) (idx : Nat),
    sim.length = df.length → (∀ row ∈ sim, row.length = df.length) →
    df.findIdx? (titleMatches t) = some idx →
    ∃ l, recommendCore t df sim = some l ∧ recommend t df sim = l ∧
      l.length = min (df.length - 1) 5 := by
  intro t df sim idx hdim hrows hidx
  have hlt : idx < df.length := by
    obtain ⟨h, -⟩ := List.findIdx?_eq_some_iff_getElem.mp hidx
    exact h
  have hlt' : idx < sim.length := by rw [hdim]; exact hlt
  have hrowsome : sim[idx]? = some (sim.get ⟨idx, hlt'⟩) := by
    rw [List.getElem?_eq_getElem hlt', List.get_eq_getElem]
  have hrlen : (sim.get ⟨idx, hlt'⟩).length = df.length :=
    hrows _ (sim.get_mem idx hlt')
  have hmem : ∀ p ∈ rankRow (sim.get ⟨idx, hlt'⟩),
      ((df[p.1]?).map fun r => formatRecord r p.2).isSome := by
    intro p hp
    have hplt := mem_rankRow_lt hp
    rw [hrlen] at hplt
    rw [List.getElem?_eq_getElem hplt]
    rfl
  obtain ⟨l, hl⟩ := optionMapList_isSome _ (rankRow (sim.get ⟨idx, hlt'⟩)) hmem
  have hcore : recommendCore t df sim = some l := by
    unfold recommendCore
    rw [hidx]
    dsimp only
    rw [hrowsome]
    exact hl
  refine ⟨l, hcore, by unfold recommend; rw [hcore]; rfl, ?_⟩
  rw [(optionMapList_eq_some _ _ _ hl).1, rankRow_length, hrlen]

theorem C6_witness :
    ∃ l, recommendCore "A" dfPair simPair = some l ∧
      recommend "A" dfPair simPair = l ∧
      l.length = min (dfPair.length - 1) 5 :=
  C6_small_corpus "A" dfPair simPair 0 (by decide) (by decide) (by decide)

/-- Claim C7: title lookup is a case-insensitive exact match on the full
title: two queries equal after lowercasing give identical results, and
the matched position is the first (smallest) corpus position whose full
lowered title equals the lowered query — every earlier position fails
the comparison, so nothing but a whole-title match can succeed. -/
theorem C7_case_insensitive_exact :
    ∀ (df : List MovieRecord) (sim : List (List ℚ)) (t t' : String),
    (strLower t = strLower t' → recommend t df sim = recommend t' df sim) ∧
    (∀ idx, df.findIdx? (titleMatches t) = some idx →
      ∃ h : idx < df.length,
        strLower (df.get ⟨idx, h⟩).title = strLower t ∧
        ∀ j (hj : j < idx),
          strLower (df.get ⟨j, Nat.lt_trans hj h⟩).title ≠ strLower t) := by
  intro df sim t t'
  constructor
  · intro hL
    have hpred : titleMatches t = titleMatches t' := by
      funext r
      unfold titleMatches
      rw [hL]
    unfold recommend recommendCore
    rw [hpred]
  · intro idx hidx
    obtain ⟨h, hp, hprev⟩ := List.findIdx?_eq_some_iff_getElem.mp hidx
    refine ⟨h, ?_, ?_⟩
    · have hp' := hp
      unfold titleMatches at hp'
      rw [List.get_eq_getElem]
      exact beq_iff_eq.mp hp'
    · intro j hj heq
      have hfail := hprev j hj
      unfold titleMatches at hfail
      rw [List.get_eq_getElem] at heq
      exact hfail (beq_iff_eq.mpr heq)

theorem C7_witness :
    recommend "A" dfPair simPair = recommend "a" dfPair simPair ∧
    (∃ h : 0 < dfPair.length,
      strLower (dfPair.get ⟨0, h⟩).title = strLower "A" ∧
      ∀ j (hj : j < 0),
        strLower (dfPair.get ⟨j, Nat.lt_trans hj h⟩).title ≠ strLower "A") :=
  ⟨(C7_case_insensitive_exact dfPair simPair "A" "a").1 (by decide),
   (C7_case_insensitive_exact dfPair simPair "A" "a").2 0 (by decide)⟩

/-- Claim C8: for every collection of term vectors the matrix built by
`computeSimilarity` is square of the corpus size; it is symmetric; its
diagonal entry is exactly 1 at every position whose term vector is
non-zero (positive self dot product); and any similarity involving a
zero-norm vector is 0 by definition, never undefined. -/
theorem C8_similarity_matrix (vecs : List (List ℝ)) :
    (computeSimilarity vecs).length = vecs.length ∧
    (∀ row ∈ computeSimilarity vecs, row.length = vecs.length) ∧
    (∀ i j : Nat, ((computeSimilarity vecs).getD i []).getD j 0 =
      ((computeSimilarity vecs).getD j []).getD i 0) ∧
    (∀ i : Nat, 0 < dot (vecs.getD i []) (vecs.getD i []) →
      ((computeSimilarity vecs).getD i []).getD i 0 = 1) ∧
    (∀ v w, norm2 v = 0 ∨ norm2 w = 0 → cosineSim v w = 0) := by
  refine ⟨?_, ?_, ?_, ?_, ?_⟩
  · unfold computeSimilarity
    rw [List.length_map]
  · intro row hrow
    unfold computeSimilarity at hrow
    obtain ⟨v, -, rfl⟩ := List.mem_map.mp hrow
    rw [List.length_map]
  · intro i j
    rw [computeSimilarity_getD, computeSimilarity_getD, cosineSim_comm]
  · intro i h
    rw [computeSimilarity_getD]
    exact cosineSim_self h
  · intro v w h
    unfold cosineSim
    rw [if_pos h]

theorem C8_witness :
    ((computeSimilarity [[(1 : ℝ), 0], [0, 1]]).getD 0 []).getD 0 0 = 1 ∧
    cosineSim [] [] = 0 :=
  ⟨(C8_similarity_matrix [[(1 : ℝ), 0], [0, 1]]).2.2.2.1 0
      (by norm_num [dot, List.getD]),
   (C8_similarity_matrix [[(1 : ℝ), 0], [0, 1]]).2.2.2.2 [] []
      (Or.inl norm2_nil)⟩

/-- Claim C9: `recommend` reports every failure as the plain empty list —
an exception in the body (`recommendCore = none`) and a failed title
lookup both yield `[]`, and a successful query on a one-record corpus
also yields `[]`, so the empty list does not distinguish the three. -/
theorem C9_failures_collapse_to_empty :
    (∀ (t : String) (df : List MovieRecord) (sim : List (List ℚ)),
      recommendCore t df sim = none → recommend t df sim = []) ∧
    (∀ (t : String) (df : List MovieRecord) (sim : List (List ℚ)),
      df.findIdx? (titleMatches t) = none → recommend t df sim = []) ∧
    recommend "A" dfOne simOne = [] := by
  refine ⟨?_, ?_, by decide⟩
  · intro t df sim h
    unfold recommend
    rw [h]
    rfl
  · intro t df sim h
    unfold recommend recommendCore
    rw [h]
    rfl

theorem C9_witness : recommend "A" dfOne [] = [] :=
  C9_failures_collapse_to_empty.1 "A" dfOne [] (by decide)

/-- Claim C10: the result of `recommend` never holds more than 5
entries: the slice `[1:6]` in the ranking step is a fixed cutoff, and
the function takes no parameter that could change it. -/
theorem C10_at_most_five (t : String) (df : List MovieRecord)
    (sim : List (List ℚ)) : (recommend t df sim).length ≤ 5 := by
  unfold recommend
  cases hcore : recommendCore t df sim with
  | none => simp
  | some l =>
    simp only [Option.getD_some]
    unfold recommendCore at hcore
    cases hidx : df.findIdx? (titleMatches t) with
    | none =>
      rw [hidx] at hcore
      simp only [Option.some.injEq] at hcore
      subst hcore
      simp
    | some idx =>
      rw [hidx] at hcore
      dsimp only at hcore
      cases hrow : sim[idx]? with
      | none =>
        rw [hrow] at hcore
        simp at hcore
      | some row =>
        rw [hrow] at hcore
        rw [(optionMapList_eq_some _ _ _ hcore).1, rankRow_length]
        exact Nat.min_le_right _ 5
